import Mathlib

/-!
Shallow embedding of the river-crossing game engine (`world.rs`, `game.rs`,
`interaction.rs`, and the update loop of `main.rs`).  Machine floats (`f32`)
are modelled by `ℚ`; the Rust fixed array `[(Entity, EntityLocation); 3]` is
modelled by a `List` of pairs manipulated exactly as the source does
(`find`-based lookup, first-match in-place update).
-/

set_option linter.all false

/-- A position on the game grid (`world.rs`). -/
structure GridPos where
  col : Int
  row : Int
deriving DecidableEq, Repr

/-- Which side of the river (`world.rs`). -/
inductive Bank where
  | Left
  | Right
deriving DecidableEq, Repr

/-- Movement directions on the grid (`world.rs`). -/
inductive Direction where
  | Up
  | Down
  | Left
  | Right
deriving DecidableEq, Repr

def Direction.delta : Direction → Int × Int
  | .Up => (0, -1)
  | .Down => (0, 1)
  | .Left => (-1, 0)
  | .Right => (1, 0)

/-- Apply a direction to get a new position (`GridPos::step`). -/
def GridPos.step (p : GridPos) (dir : Direction) : GridPos :=
  { col := p.col + dir.delta.1, row := p.row + dir.delta.2 }

def Bank.opposite : Bank → Bank
  | .Left => .Right
  | .Right => .Left

-- Grid layout constants (`world.rs`).

def GRID_COLS : Int := 12

def GRID_ROWS : Int := 8

def LEFT_BANK_COL_MIN : Int := 0

def LEFT_BANK_COL_MAX : Int := 3

def RIVER_COL_MIN : Int := 4

def RIVER_COL_MAX : Int := 7

def RIGHT_BANK_COL_MIN : Int := 8

def RIGHT_BANK_COL_MAX : Int := 11

def DOCK_ROW : Int := 4

def LEFT_DOCK : GridPos := ⟨3, DOCK_ROW⟩

def RIGHT_DOCK : GridPos := ⟨8, DOCK_ROW⟩

def PLAYER_START : GridPos := ⟨2, 4⟩

def WOLF_START : GridPos := ⟨1, 2⟩

def SHEEP_START : GridPos := ⟨1, 4⟩

def CABBAGE_START : GridPos := ⟨1, 6⟩

/-- Check if a grid position is walkable land (`world::is_walkable`). -/
def is_walkable (pos : GridPos) : Bool :=
  decide (0 ≤ pos.row ∧ pos.row < GRID_ROWS ∧ 0 ≤ pos.col ∧ pos.col < GRID_COLS ∧
    ¬(RIVER_COL_MIN ≤ pos.col ∧ pos.col ≤ RIVER_COL_MAX))

/-- Determine which bank a position is on, if any (`world::bank_of`). -/
def bank_of (pos : GridPos) : Option Bank :=
  if LEFT_BANK_COL_MIN ≤ pos.col ∧ pos.col ≤ LEFT_BANK_COL_MAX then some Bank.Left
  else if RIGHT_BANK_COL_MIN ≤ pos.col ∧ pos.col ≤ RIGHT_BANK_COL_MAX then some Bank.Right
  else none

/-- Manhattan-distance-at-most-one adjacency (`world::is_adjacent`). -/
def is_adjacent (a b : GridPos) : Bool :=
  decide ((a.col - b.col).natAbs + (a.row - b.row).natAbs ≤ 1)

/-- Check if a position is the dock for the given bank (`world::is_dock_position`). -/
def is_dock_position (pos : GridPos) (bank : Bank) : Bool :=
  match bank with
  | .Left => pos == LEFT_DOCK
  | .Right => pos == RIGHT_DOCK

/-- Get the dock position for a bank (`world::dock_for`). -/
def dock_for (bank : Bank) : GridPos :=
  match bank with
  | .Left => LEFT_DOCK
  | .Right => RIGHT_DOCK

/-- The three transportable entities (`game.rs`). -/
inductive Entity where
  | Wolf
  | Sheep
  | Cabbage
deriving DecidableEq, Repr

/-- Where an entity currently is (`game.rs`). -/
inductive EntityLocation where
  | OnBank (bank : Bank) (pos : GridPos)
  | FollowingPlayer
  | OnBoat
deriving DecidableEq, Repr

/-- Where the player currently is (`game.rs`). -/
inductive PlayerLocation where
  | OnLand (pos : GridPos)
  | OnBoat
deriving DecidableEq, Repr

/-- The boat's state; `progress` is the `f32` field modelled by `ℚ` (`game.rs`). -/
inductive BoatState where
  | Docked (bank : Bank)
  | Crossing (fromBank : Bank) (progress : ℚ)
deriving DecidableEq, Repr

/-- Why the player lost (`game.rs`). -/
inductive LoseReason where
  | WolfAteSheep
  | SheepAteCabbage
deriving DecidableEq, Repr

/-- High-level game phase (`game.rs`). -/
inductive GamePhase where
  | Playing
  | Won
  | Lost (reason : LoseReason)
deriving DecidableEq, Repr

/-- All possible interaction actions (`game.rs`). -/
inductive Game.Action where
  | PickUp (e : Entity)
  | Drop (e : Entity)
  | LoadOntoBoat (e : Entity)
  | UnloadFromBoat (e : Entity)
  | BoardBoat
  | UnboardBoat
deriving DecidableEq, Repr

def CROSSING_DURATION : ℚ := 2

/-- The full game state (`game.rs::GameState`). -/
@[ext] structure GameState where
  phase : GamePhase
  player : PlayerLocation
  entities : List (Entity × EntityLocation)
  follower : Option Entity
  boat : BoatState
  boat_cargo : Option Entity
  crossing_timer : ℚ
  crossing_count : Nat
deriving DecidableEq, Repr

/-- `GameState::new`. -/
def GameState.new : GameState where
  phase := .Playing
  player := .OnLand PLAYER_START
  entities :=
    [(Entity.Wolf, .OnBank Bank.Left WOLF_START),
     (Entity.Sheep, .OnBank Bank.Left SHEEP_START),
     (Entity.Cabbage, .OnBank Bank.Left CABBAGE_START)]
  follower := none
  boat := .Docked Bank.Left
  boat_cargo := none
  crossing_timer := 0
  crossing_count := 0

/-- `GameState::entity_location`; the source `unwrap`s the lookup, which never
fails because the entity array always holds all three entities, so the `none`
branch is an arbitrary (unreachable) value. -/
def GameState.entity_location (s : GameState) (e : Entity) : EntityLocation :=
  match s.entities.find? (fun p => p.1 == e) with
  | some p => p.2
  | none => .FollowingPlayer

/-- First-match in-place update of the entity list (`GameState::set_entity_location`). -/
def setLoc : List (Entity × EntityLocation) → Entity → EntityLocation →
    List (Entity × EntityLocation)
  | [], _, _ => []
  | (e0, l0) :: rest, e, l =>
    if e0 == e then (e0, l) :: rest else (e0, l0) :: setLoc rest e l

def GameState.set_entity_location (s : GameState) (e : Entity) (l : EntityLocation) :
    GameState :=
  { s with entities := setLoc s.entities e l }

/-- All entities on a given bank, excluding the follower (`GameState::entities_on_bank`). -/
def GameState.entities_on_bank (s : GameState) (bank : Bank) : List Entity :=
  s.entities.filterMap (fun p =>
    if s.follower == some p.1 then none
    else
      match p.2 with
      | .OnBank b _ => if b == bank then some p.1 else none
      | _ => none)

/-- `GameState::try_move_player`; returns the Rust `bool` paired with the
updated state.  The source `unwrap`s `bank_of(new_pos)`, which never fails for
a walkable position; the `none` branch is unreachable. -/
def GameState.try_move_player (s : GameState) (dir : Direction) : Bool × GameState :=
  match s.player with
  | .OnBoat => (false, s)
  | .OnLand pos =>
    let new_pos := pos.step dir
    if is_walkable new_pos then
      let s1 := { s with player := .OnLand new_pos }
      match s.follower with
      | some e =>
        match bank_of new_pos with
        | some b => (true, s1.set_entity_location e (.OnBank b pos))
        | none => (true, s1)
      | none => (true, s1)
    else (false, s)

/-- `GameState::execute_action`. -/
def GameState.execute_action (s : GameState) (a : Game.Action) : GameState :=
  match a with
  | .PickUp e =>
    ({ s with follower := some e }).set_entity_location e .FollowingPlayer
  | .Drop e =>
    let s1 := { s with follower := none }
    match s.player with
    | .OnLand pos =>
      match bank_of pos with
      | some bank => s1.set_entity_location e (.OnBank bank pos)
      | none => s1
    | .OnBoat => s1
  | .LoadOntoBoat e =>
    ({ s with follower := none, boat_cargo := some e }).set_entity_location e .OnBoat
  | .UnloadFromBoat e =>
    let s1 := { s with boat_cargo := none }
    match s.boat with
    | .Docked bank => s1.set_entity_location e (.OnBank bank (dock_for bank))
    | .Crossing _ _ => s1
  | .BoardBoat =>
    { s with player := .OnBoat }
  | .UnboardBoat =>
    match s.boat with
    | .Docked bank =>
      let s1 := { s with player := .OnLand (dock_for bank) }
      match s.follower with
      | some e =>
        ({ s1 with follower := none }).set_entity_location e (.OnBank bank (dock_for bank))
      | none => s1
    | .Crossing _ _ => s

/-- `GameState::start_crossing`; Rust `bool` result paired with the state. -/
def GameState.start_crossing (s : GameState) : Bool × GameState :=
  if s.player == .OnBoat then
    match s.boat with
    | .Docked bank =>
      (true, { s with boat := .Crossing bank 0, crossing_timer := 0 })
    | .Crossing _ _ => (false, s)
  else (false, s)

/-- `GameState::update_crossing`. -/
def GameState.update_crossing (s : GameState) (dt : ℚ) : GameState :=
  match s.boat with
  | .Crossing fromBank _ =>
    let t := s.crossing_timer + dt
    let progress := min (t / CROSSING_DURATION) 1
    if 1 ≤ progress then
      { s with
        crossing_timer := t
        boat := .Docked fromBank.opposite
        crossing_count := s.crossing_count + 1 }
    else
      { s with crossing_timer := t, boat := .Crossing fromBank progress }
  | .Docked _ => s

/-- Per-bank body of the rule-check loop (`GameState::check_eating_rules`). -/
def GameState.bank_violation (s : GameState) (bank : Bank) : Option LoseReason :=
  let entities_here := s.entities_on_bank bank
  let has_wolf := entities_here.contains Entity.Wolf
  let has_sheep := entities_here.contains Entity.Sheep
  let has_cabbage := entities_here.contains Entity.Cabbage
  if has_wolf && has_sheep then some .WolfAteSheep
  else if has_sheep && has_cabbage then some .SheepAteCabbage
  else none

/-- `GameState::check_eating_rules`: iterate over `[Left, Right]`, skipping the
player's bank, returning the first violation found. -/
def GameState.check_eating_rules (s : GameState) : Option LoseReason :=
  let player_bank : Option Bank :=
    match s.player with
    | .OnLand pos => bank_of pos
    | .OnBoat => none
  match (if player_bank == some Bank.Left then none else s.bank_violation Bank.Left) with
  | some r => some r
  | none =>
    if player_bank == some Bank.Right then none else s.bank_violation Bank.Right

/-- `GameState::check_win`. -/
def GameState.check_win (s : GameState) : Bool :=
  s.entities.all (fun p =>
    match p.2 with
    | .OnBank Bank.Right _ => true
    | _ => false)

/-- `interaction::resolve_on_boat`: no interaction while crossing; otherwise
load the follower if the cargo slot is free, else unload the cargo if the
player is not carrying, else get off the boat. -/
def resolve_on_boat (s : GameState) : Option Game.Action :=
  match s.boat with
  | .Crossing _ _ => none
  | .Docked _ =>
    match s.follower, s.boat_cargo with
    | some e, none => some (.LoadOntoBoat e)
    | none, some e2 => some (.UnloadFromBoat e2)
    | _, _ => some .UnboardBoat

/-- `interaction::find_nearby_entity`: two passes over the fixed priority list
(same tile, then adjacent), skipping the follower. -/
def find_nearby_entity (s : GameState) (player_pos : GridPos) (bank : Bank) :
    Option Entity :=
  let priority := [Entity.Sheep, Entity.Wolf, Entity.Cabbage]
  match priority.find? (fun e =>
      !(s.follower == some e) &&
      match s.entity_location e with
      | .OnBank b p => b == bank && p == player_pos
      | _ => false) with
  | some e => some e
  | none =>
    priority.find? (fun e =>
      !(s.follower == some e) &&
      match s.entity_location e with
      | .OnBank b p => b == bank && is_adjacent player_pos p
      | _ => false)

/-- `interaction::resolve_on_land`. -/
def resolve_on_land (s : GameState) (pos : GridPos) : Option Game.Action :=
  match bank_of pos with
  | none => none
  | some bank =>
    let at_dock := is_dock_position pos bank && s.boat == .Docked bank
    if at_dock then
      match s.follower with
      | some e => if s.boat_cargo.isNone then some (.LoadOntoBoat e) else none
      | none => some .BoardBoat
    else
      match s.follower with
      | some e => some (.Drop e)
      | none =>
        match find_nearby_entity s pos bank with
        | some e => some (.PickUp e)
        | none => none

/-- `interaction::resolve_interaction`. -/
def resolve_interaction (s : GameState) : Option Game.Action :=
  match s.player with
  | .OnBoat => resolve_on_boat s
  | .OnLand pos => resolve_on_land s pos

/-- Events produced by the input system (`input.rs::InputEvent`). -/
inductive InputEvent where
  | Move (dir : Direction)
  | Interact
  | CrossRiver
  | Restart
  | None
deriving DecidableEq, Repr

/-- One iteration of the update section of the main loop (`main.rs`): handle
the event according to the phase, then advance the crossing timer. -/
def gameStep (s : GameState) (ev : InputEvent) (dt : ℚ) : GameState :=
  match s.phase with
  | .Playing =>
    let s1 :=
      match ev with
      | .Move dir => (s.try_move_player dir).2
      | .Interact =>
        match resolve_interaction s with
        | some a =>
          let s2 := s.execute_action a
          if s2.check_win then { s2 with phase := .Won } else s2
        | none => s
      | .CrossRiver =>
        let r := s.start_crossing
        if r.1 then
          match r.2.check_eating_rules with
          | some reason => { r.2 with phase := .Lost reason }
          | none => r.2
        else r.2
      | .Restart => GameState.new
      | .None => s
    s1.update_crossing dt
  | .Won => if ev == .Restart then GameState.new else s
  | .Lost _ => if ev == .Restart then GameState.new else s

/-- States reachable from the initial state by main-loop steps whose actions
come from `resolve_interaction`. -/
inductive Reachable : GameState → Prop where
  | init : Reachable GameState.new
  | step {s : GameState} (ev : InputEvent) (dt : ℚ) :
      Reachable s → Reachable (gameStep s ev dt)

/-! ### Helper lemmas -/

lemma walkable_bank (pos : GridPos) (h : is_walkable pos = true) :
    ∃ b, bank_of pos = some b := by
  simp only [is_walkable, GRID_ROWS, GRID_COLS, RIVER_COL_MIN, RIVER_COL_MAX,
    decide_eq_true_eq] at h
  unfold bank_of
  split
  · exact ⟨Bank.Left, rfl⟩
  · split
    · exact ⟨Bank.Right, rfl⟩
    · simp only [LEFT_BANK_COL_MIN, LEFT_BANK_COL_MAX, RIGHT_BANK_COL_MIN,
        RIGHT_BANK_COL_MAX, not_and, not_le] at *
      omega

lemma bank_of_step_eq (pos : GridPos) (dir : Direction)
    (h1 : is_walkable pos = true) (h2 : is_walkable (pos.step dir) = true) :
    bank_of pos = bank_of (pos.step dir) := by
  simp only [is_walkable, GRID_ROWS, GRID_COLS, RIVER_COL_MIN, RIVER_COL_MAX,
    GridPos.step, Direction.delta, decide_eq_true_eq] at h1 h2
  cases dir <;>
    simp only [bank_of, GridPos.step, Direction.delta, LEFT_BANK_COL_MIN,
      LEFT_BANK_COL_MAX, RIGHT_BANK_COL_MIN, RIGHT_BANK_COL_MAX] at * <;>
    split_ifs <;> first | rfl | omega

lemma isOnRightBank_iff (l : EntityLocation) :
    (match l with
      | EntityLocation.OnBank Bank.Right _ => true
      | _ => false) = true ↔ ∃ pos, l = EntityLocation.OnBank Bank.Right pos := by
  cases l with
  | OnBank b p => cases b <;> simp
  | FollowingPlayer => simp
  | OnBoat => simp

/-! ### C5: check_win -/

/-- Claim C5: `check_win` returns true iff every entity in the entity table is
located `OnBank Right _`; in particular, for the well-formed three-entity
table, it is true iff the wolf, the sheep and the cabbage are all on the right
bank, and false whenever any of them is following, on the boat, or on the left
bank. -/
theorem check_win_characterization (s : GameState) :
    (s.check_win = true ↔
      ∀ p ∈ s.entities, ∃ pos, p.2 = EntityLocation.OnBank Bank.Right pos) ∧
    (∀ a b c,
      s.entities = [(Entity.Wolf, a), (Entity.Sheep, b), (Entity.Cabbage, c)] →
      (s.check_win = true ↔
        (∃ p, a = EntityLocation.OnBank Bank.Right p) ∧
        (∃ p, b = EntityLocation.OnBank Bank.Right p) ∧
        (∃ p, c = EntityLocation.OnBank Bank.Right p))) := by
  constructor
  · simp only [GameState.check_win, List.all_eq_true, isOnRightBank_iff]
  · intro a b c hE
    simp only [GameState.check_win, hE, List.all_cons, List.all_nil,
      Bool.and_true, Bool.and_eq_true, isOnRightBank_iff]

/-- Witness for `check_win_characterization`: concrete evaluation on the
initial state (all entities on the left bank, so no win). -/
theorem check_win_characterization_witness :
    GameState.new.check_win = true ↔
      (∃ p, EntityLocation.OnBank Bank.Left WOLF_START = EntityLocation.OnBank Bank.Right p) ∧
      (∃ p, EntityLocation.OnBank Bank.Left SHEEP_START = EntityLocation.OnBank Bank.Right p) ∧
      (∃ p, EntityLocation.OnBank Bank.Left CABBAGE_START = EntityLocation.OnBank Bank.Right p) :=
  (check_win_characterization GameState.new).2 _ _ _ rfl

/-! ### C6: resolver at the dock -/

/-- Claim C6: when the player stands on land at the dock of bank `b` and the
boat is docked at `b`: with a follower and empty cargo the resolver yields
`LoadOntoBoat follower`; with a follower and occupied cargo it yields nothing;
with no follower it yields `BoardBoat`. -/
theorem resolve_at_dock (s : GameState) (pos : GridPos) (b : Bank)
    (hp : s.player = PlayerLocation.OnLand pos)
    (hb : bank_of pos = some b)
    (hd : is_dock_position pos b = true)
    (hboat : s.boat = BoatState.Docked b) :
    (∀ e, s.follower = some e → s.boat_cargo = none →
      resolve_interaction s = some (Game.Action.LoadOntoBoat e)) ∧
    (∀ e e2, s.follower = some e → s.boat_cargo = some e2 →
      resolve_interaction s = none) ∧
    (s.follower = none → resolve_interaction s = some Game.Action.BoardBoat) := by
  refine ⟨?_, ?_, ?_⟩
  · intro e hf hc
    simp [resolve_interaction, resolve_on_land, hp, hb, hd, hboat, hf, hc]
  · intro e e2 hf hc
    simp [resolve_interaction, resolve_on_land, hp, hb, hd, hboat, hf, hc]
  · intro hf
    simp [resolve_interaction, resolve_on_land, hp, hb, hd, hboat, hf]

/-- Witness for `resolve_at_dock`: three concrete dock states exercising the
three branches. -/
theorem resolve_at_dock_witness :
    (resolve_interaction
      { GameState.new with
          player := .OnLand LEFT_DOCK
          follower := some Entity.Sheep } = some (Game.Action.LoadOntoBoat Entity.Sheep)) ∧
    (resolve_interaction
      { GameState.new with
          player := .OnLand LEFT_DOCK
          follower := some Entity.Sheep
          boat_cargo := some Entity.Wolf } = none) ∧
    (resolve_interaction
      { GameState.new with player := .OnLand LEFT_DOCK } = some Game.Action.BoardBoat) :=
  ⟨(resolve_at_dock _ LEFT_DOCK Bank.Left rfl (by decide) (by decide) rfl).1
      Entity.Sheep rfl rfl,
   (resolve_at_dock _ LEFT_DOCK Bank.Left rfl (by decide) (by decide) rfl).2.1
      Entity.Sheep Entity.Wolf rfl rfl,
   (resolve_at_dock _ LEFT_DOCK Bank.Left rfl (by decide) (by decide) rfl).2.2 rfl⟩

/-! ### C7: pickup search -/

/-- Claim C7: when the player is on land on bank `b`, not at a usable dock,
with no follower, the resolver performs a same-tile pass and then an adjacent
pass over the priority list Sheep, Wolf, Cabbage; the first match is picked
up, and if neither pass matches the resolver yields nothing. -/
theorem resolve_pickup_two_pass (s : GameState) (pos : GridPos) (b : Bank)
    (hp : s.player = PlayerLocation.OnLand pos)
    (hb : bank_of pos = some b)
    (hdock : (is_dock_position pos b && s.boat == BoatState.Docked b) = false)
    (hf : s.follower = none) :
    resolve_interaction s = Option.map Game.Action.PickUp
      (match [Entity.Sheep, Entity.Wolf, Entity.Cabbage].find? (fun e =>
          match s.entity_location e with
          | .OnBank b2 p => b2 == b && p == pos
          | _ => false) with
        | some e => some e
        | none =>
          [Entity.Sheep, Entity.Wolf, Entity.Cabbage].find? (fun e =>
            match s.entity_location e with
            | .OnBank b2 p => b2 == b && is_adjacent pos p
            | _ => false)) := by
  simp only [resolve_interaction, hp, resolve_on_land, hb, hdock, Bool.false_eq_true,
    if_false, hf, find_nearby_entity, Option.some.injEq, reduceCtorEq, Bool.not_eq_true,
    Option.map]
  split <;> rename_i h1
  · split <;> rename_i h2 <;> simp [h2] at h1 <;> simp [h1]
  · split <;> rename_i h2 <;> simp [h2] at h1 <;> simp [h1]

/-- Witness for `resolve_pickup_two_pass`: in the initial state the player at
(2,4) has no same-tile entity and the sheep at (1,4) wins the adjacent pass. -/
theorem resolve_pickup_two_pass_witness :
    resolve_interaction GameState.new = some (Game.Action.PickUp Entity.Sheep) := by
  have h := resolve_pickup_two_pass GameState.new PLAYER_START Bank.Left rfl
    (by decide) (by decide) rfl
  rw [h]
  decide

/-! ### C4: player movement -/

/-- Claim C4: `try_move_player` fails with the state unchanged when the player
is not on land or the stepped position is not walkable; on success the player
moves to the stepped position and an existing follower snaps to the vacated
tile on the bank of the stepped position, which coincides with the bank of the
old position whenever the old position is itself walkable. -/
theorem try_move_player_spec (s : GameState) (dir : Direction) :
    (s.player = PlayerLocation.OnBoat → s.try_move_player dir = (false, s)) ∧
    (∀ pos, s.player = PlayerLocation.OnLand pos →
      is_walkable (pos.step dir) = false → s.try_move_player dir = (false, s)) ∧
    (∀ pos, s.player = PlayerLocation.OnLand pos →
      is_walkable (pos.step dir) = true →
      (s.try_move_player dir).1 = true ∧
      (s.follower = none →
        s.try_move_player dir = (true, { s with player := .OnLand (pos.step dir) })) ∧
      (∀ e b, s.follower = some e → bank_of (pos.step dir) = some b →
        s.try_move_player dir =
          (true, ({ s with player := .OnLand (pos.step dir) }).set_entity_location e
            (.OnBank b pos))) ∧
      (∃ b, bank_of (pos.step dir) = some b) ∧
      (is_walkable pos = true → bank_of pos = bank_of (pos.step dir))) := by
  refine ⟨?_, ?_, ?_⟩
  · intro hp
    simp [GameState.try_move_player, hp]
  · intro pos hp hw
    simp [GameState.try_move_player, hp, hw]
  · intro pos hp hw
    obtain ⟨b, hb⟩ := walkable_bank _ hw
    refine ⟨?_, ?_, ?_, ⟨b, hb⟩, fun hwo => bank_of_step_eq pos dir hwo hw⟩
    · rcases hfol : s.follower with _ | e <;>
        simp [GameState.try_move_player, hp, hw, hfol, hb]
    · intro hf
      simp [GameState.try_move_player, hp, hw, hf]
    · intro e b2 hf hb2
      simp [GameState.try_move_player, hp, hw, hf, hb2]

/-- Witness for `try_move_player_spec`: concrete moves in the initial state —
a step into the river fails and a step left succeeds. -/
theorem try_move_player_spec_witness :
    (GameState.try_move_player { GameState.new with player := .OnLand LEFT_DOCK }
        Direction.Right =
      (false, { GameState.new with player := .OnLand LEFT_DOCK })) ∧
    (GameState.new.try_move_player Direction.Left =
      (true, { GameState.new with player := .OnLand (PLAYER_START.step Direction.Left) })) :=
  ⟨(try_move_player_spec { GameState.new with player := .OnLand LEFT_DOCK }
      Direction.Right).2.1 LEFT_DOCK rfl (by decide),
   ((try_move_player_spec GameState.new Direction.Left).2.2 PLAYER_START rfl
      (by decide)).2.1 rfl⟩

/-! ### Field-preservation lemmas -/

lemma update_crossing_fields (s : GameState) (dt : ℚ) :
    (s.update_crossing dt).phase = s.phase ∧
    (s.update_crossing dt).player = s.player ∧
    (s.update_crossing dt).entities = s.entities ∧
    (s.update_crossing dt).follower = s.follower ∧
    (s.update_crossing dt).boat_cargo = s.boat_cargo := by
  rcases hb : s.boat with b | ⟨f, p⟩
  · simp [GameState.update_crossing, hb]
  · simp only [GameState.update_crossing, hb]
    split <;> exact ⟨rfl, rfl, rfl, rfl, rfl⟩

lemma try_move_player_phase (s : GameState) (dir : Direction) :
    ((s.try_move_player dir).2).phase = s.phase := by
  rcases hp : s.player with pos | _
  · simp only [GameState.try_move_player, hp]
    split
    · rcases hf : s.follower with _ | e
      · simp only [hf]
      · simp only [hf]
        rcases hb : bank_of (pos.step dir) with _ | b <;> simp only [hb] <;> rfl
    · rfl
  · simp [GameState.try_move_player, hp]

lemma execute_action_phase (s : GameState) (a : Game.Action) :
    (s.execute_action a).phase = s.phase := by
  unfold GameState.execute_action GameState.set_entity_location
  split <;> (try rfl) <;> split <;> (try rfl) <;> split <;> rfl

lemma start_crossing_snd_of_false (s : GameState)
    (h : (s.start_crossing).1 = false) : (s.start_crossing).2 = s := by
  rcases hp : s.player with pos | _
  · simp [GameState.start_crossing, hp]
  · rcases hb : s.boat with b | ⟨f, p⟩
    · simp [GameState.start_crossing, hp, hb] at h
    · simp [GameState.start_crossing, hp, hb]

lemma check_eating_rules_start (s : GameState) :
    (s.start_crossing).2.check_eating_rules = s.check_eating_rules := by
  unfold GameState.start_crossing
  split
  · split <;> rfl
  · rfl

lemma start_crossing_phase (s : GameState) :
    (s.start_crossing).2.phase = s.phase := by
  unfold GameState.start_crossing
  split
  · split <;> rfl
  · rfl

/-! ### C9: terminal phases are frozen -/

/-- Claim C9: once the phase is `Won` or `Lost`, a `Move`, `Interact` or
`CrossRiver` event (and even a `None` event) leaves the whole state unchanged,
and a `Restart` event reinitializes the full aggregate; in particular the
phase stays terminal until a `Restart`. -/
theorem terminal_phase_frozen (s : GameState) (ev : InputEvent) (dt : ℚ)
    (h : s.phase = GamePhase.Won ∨ ∃ r, s.phase = GamePhase.Lost r) :
    (ev ≠ InputEvent.Restart → gameStep s ev dt = s) ∧
    (ev = InputEvent.Restart → gameStep s ev dt = GameState.new) := by
  rcases h with h | ⟨r, h⟩ <;>
    (unfold gameStep; rw [h]; cases ev <;> simp)

/-- Witness for `terminal_phase_frozen`: a won state absorbs `Interact` and is
reset by `Restart`. -/
theorem terminal_phase_frozen_witness :
    (gameStep { GameState.new with phase := .Won } InputEvent.Interact 1 =
      { GameState.new with phase := .Won }) ∧
    (gameStep { GameState.new with phase := .Won } InputEvent.Restart 1 =
      GameState.new) :=
  ⟨(terminal_phase_frozen { GameState.new with phase := .Won } .Interact 1
      (Or.inl rfl)).1 (by decide),
   (terminal_phase_frozen { GameState.new with phase := .Won } .Restart 1
      (Or.inl rfl)).2 rfl⟩

/-! ### C2: start_crossing and the single loss point -/

/-- Claim C2: `start_crossing` is a failing no-op unless the player is on the
boat and the boat is docked; on success the boat becomes `Crossing bank 0`,
the crossing timer resets to 0, and the eating-rule check evaluated on the
post-departure state equals the check on the departure state; at the step
level a failed crossing performs no rule check (the phase cannot change), and
a `Playing` phase can become `Lost` only through a successful `CrossRiver`
event whose departure-state rule check reports that reason. -/
theorem start_crossing_spec (s : GameState) (dt : ℚ) :
    (¬(s.player = PlayerLocation.OnBoat ∧ ∃ b, s.boat = BoatState.Docked b) →
      s.start_crossing = (false, s)) ∧
    (∀ b, s.player = PlayerLocation.OnBoat → s.boat = BoatState.Docked b →
      s.start_crossing =
        (true, { s with boat := .Crossing b 0, crossing_timer := 0 }) ∧
      (s.start_crossing).2.check_eating_rules = s.check_eating_rules) ∧
    (s.phase = GamePhase.Playing → (s.start_crossing).1 = false →
      gameStep s InputEvent.CrossRiver dt = s.update_crossing dt) ∧
    (∀ ev r, s.phase = GamePhase.Playing →
      (gameStep s ev dt).phase = GamePhase.Lost r →
      ev = InputEvent.CrossRiver ∧ (s.start_crossing).1 = true ∧
        s.check_eating_rules = some r) := by
  refine ⟨?_, ?_, ?_, ?_⟩
  · intro h
    unfold GameState.start_crossing
    split
    · rename_i hp
      split
      · rename_i b hb
        exact absurd ⟨by simpa using hp, b, hb⟩ h
      · rfl
    · rfl
  · intro b hp hb
    refine ⟨?_, check_eating_rules_start s⟩
    simp [GameState.start_crossing, hp, hb]
  · intro hph hfail
    unfold gameStep
    rw [hph]
    simp only [hfail, Bool.false_eq_true, if_false, start_crossing_snd_of_false s hfail]
  · intro ev r hph hlost
    unfold gameStep at hlost
    rw [hph] at hlost
    cases ev <;> dsimp only at hlost
    case Move dir =>
      rw [(update_crossing_fields _ dt).1, try_move_player_phase] at hlost
      rw [hph] at hlost
      exact absurd hlost (by simp)
    case Interact =>
      rw [(update_crossing_fields _ dt).1] at hlost
      rcases hres : resolve_interaction s with _ | a
      · rw [hres] at hlost
        rw [hph] at hlost
        exact absurd hlost (by simp)
      · rw [hres] at hlost
        dsimp only at hlost
        rcases hwin : (s.execute_action a).check_win with _ | _ <;>
          simp only [hwin, Bool.false_eq_true, if_false, if_true] at hlost
        · rw [execute_action_phase, hph] at hlost
          exact absurd hlost (by simp)
        · exact absurd hlost (by simp)
    case CrossRiver =>
      rw [(update_crossing_fields _ dt).1] at hlost
      rcases hr1 : (s.start_crossing).1 with _ | _
      · rw [hr1] at hlost
        simp only [Bool.false_eq_true, if_false] at hlost
        rw [start_crossing_snd_of_false s hr1, hph] at hlost
        exact absurd hlost (by simp)
      · rw [hr1] at hlost
        simp only [if_true] at hlost
        rcases hchk : (s.start_crossing).2.check_eating_rules with _ | reason
        · rw [hchk] at hlost
          rw [start_crossing_phase, hph] at hlost
          exact absurd hlost (by simp)
        · rw [hchk] at hlost
          dsimp only at hlost
          simp only [GamePhase.Lost.injEq] at hlost
          rw [check_eating_rules_start] at hchk
          exact ⟨rfl, rfl, hlost ▸ hchk⟩
    case Restart =>
      rw [(update_crossing_fields _ dt).1] at hlost
      exact absurd hlost (by simp [GameState.new])
    case None =>
      rw [(update_crossing_fields _ dt).1, hph] at hlost
      exact absurd hlost (by simp)

/-- Witness for `start_crossing_spec`: a boarded state starts a crossing and
the unboarded initial state is rejected unchanged. -/
theorem start_crossing_spec_witness :
    (GameState.start_crossing { GameState.new with player := .OnBoat } =
      (true,
        { GameState.new with
            player := .OnBoat
            boat := .Crossing Bank.Left 0
            crossing_timer := 0 })) ∧
    GameState.new.start_crossing = (false, GameState.new) :=
  ⟨((start_crossing_spec { GameState.new with player := .OnBoat } 1).2.1 Bank.Left
      rfl rfl).1,
   (start_crossing_spec GameState.new 1).1 (fun h => absurd h.1 (by decide))⟩

/-! ### C1: the eating-rule checker -/

/-- Bank of the tile the player currently attends, written from the spec. -/
def attendedBank (s : GameState) : Option Bank :=
  match s.player with
  | .OnLand pos => bank_of pos
  | .OnBoat => none

/-- Written from the spec: entity `e` is resident on bank `b` and is not the
entity currently following the player. -/
def isUnattendedOn (s : GameState) (b : Bank) (e : Entity) : Bool :=
  !(s.follower == some e) &&
    s.entities.any (fun p =>
      p.1 == e &&
      match p.2 with
      | .OnBank b2 _ => b2 == b
      | _ => false)

/-- Written from the spec: the violation reported for one unattended bank —
Wolf with Sheep first, then Sheep with Cabbage. -/
def bankOutcome (s : GameState) (b : Bank) : Option LoseReason :=
  if isUnattendedOn s b .Wolf && isUnattendedOn s b .Sheep then some .WolfAteSheep
  else if isUnattendedOn s b .Sheep && isUnattendedOn s b .Cabbage then some .SheepAteCabbage
  else none

/-- Written from the spec: examine Left bank then Right bank, skipping the
player's bank, returning the first violation. -/
def eatingRulesSpec (s : GameState) : Option LoseReason :=
  let pb := attendedBank s
  match (if pb == some Bank.Left then none else bankOutcome s Bank.Left) with
  | some r => some r
  | none => if pb == some Bank.Right then none else bankOutcome s Bank.Right

lemma contains_entities_on_bank (s : GameState) (b : Bank) (e : Entity) :
    (s.entities_on_bank b).contains e = isUnattendedOn s b e := by
  rw [Bool.eq_iff_iff]
  unfold GameState.entities_on_bank isUnattendedOn
  rw [List.elem_iff, List.mem_filterMap]
  rw [Bool.and_eq_true, List.any_eq_true]
  constructor
  · rintro ⟨p, hp, hfp⟩
    by_cases hfol : s.follower = some p.1
    · simp [hfol] at hfp
    · have hfol2 : (s.follower == some p.1) = false := by simp [hfol]
      rw [hfol2] at hfp
      simp only [Bool.false_eq_true, if_false] at hfp
      rcases hl : p.2 with ⟨b2, pp⟩ | _ | _ <;> rw [hl] at hfp
      · by_cases hb2 : b2 = b
        · subst hb2
          simp only [beq_self_eq_true, if_true, Option.some.injEq] at hfp
          subst hfp
          refine ⟨by simpa using hfol, p, hp, ?_⟩
          simp [hl]
        · simp [show (b2 == b) = false by simp [hb2]] at hfp
      · simp at hfp
      · simp at hfp
  · rintro ⟨hfol, p, hp, hmatch⟩
    rw [Bool.and_eq_true] at hmatch
    obtain ⟨he, hbank⟩ := hmatch
    rw [beq_iff_eq] at he
    subst he
    refine ⟨p, hp, ?_⟩
    have hfol2 : (s.follower == some p.1) = false := by
      simpa using hfol
    rw [hfol2]
    rcases hl : p.2 with ⟨b2, pp⟩ | _ | _ <;> rw [hl] at hbank
    · rw [beq_iff_eq] at hbank
      subst hbank
      simp
    · simp at hbank
    · simp at hbank

lemma bank_violation_eq_outcome (s : GameState) (b : Bank) :
    s.bank_violation b = bankOutcome s b := by
  unfold GameState.bank_violation bankOutcome
  dsimp only
  rw [contains_entities_on_bank, contains_entities_on_bank, contains_entities_on_bank]

/-- Claim C1: `check_eating_rules` computes exactly the spec-side rule: visit
Left bank then Right bank, skip the player's bank, take the entities resident
on the bank minus the follower, report Wolf-and-Sheep first, then
Sheep-and-Cabbage; moreover without an unattended sheep a bank never yields a
violation (wolf plus cabbage is safe), and a bank with both wolf and sheep
unattended always yields `WolfAteSheep` (precedence over `SheepAteCabbage`). -/
theorem check_eating_rules_spec (s : GameState) :
    s.check_eating_rules = eatingRulesSpec s ∧
    (∀ b, isUnattendedOn s b Entity.Sheep = false → bankOutcome s b = none) ∧
    (∀ b, isUnattendedOn s b Entity.Wolf = true →
      isUnattendedOn s b Entity.Sheep = true →
      bankOutcome s b = some LoseReason.WolfAteSheep) := by
  refine ⟨?_, ?_, ?_⟩
  · unfold GameState.check_eating_rules eatingRulesSpec attendedBank
    dsimp only
    rw [bank_violation_eq_outcome, bank_violation_eq_outcome]
  · intro b hs
    unfold bankOutcome
    simp [hs]
  · intro b hw hsh
    unfold bankOutcome
    simp [hw, hsh]

/-- Witness for `check_eating_rules_spec`: the initial state matches the spec
checker; the empty right bank is safe; moving the player to the right dock
leaves wolf and sheep unattended on the left bank, reported as
`WolfAteSheep`. -/
theorem check_eating_rules_spec_witness :
    GameState.new.check_eating_rules = eatingRulesSpec GameState.new ∧
    bankOutcome GameState.new Bank.Right = none ∧
    bankOutcome { GameState.new with player := .OnLand RIGHT_DOCK } Bank.Left =
      some LoseReason.WolfAteSheep :=
  ⟨(check_eating_rules_spec GameState.new).1,
   (check_eating_rules_spec GameState.new).2.1 Bank.Right (by decide),
   (check_eating_rules_spec { GameState.new with player := .OnLand RIGHT_DOCK }).2.2
      Bank.Left (by decide) (by decide)⟩

/-! ### C3: the crossing state machine -/

lemma update_crossing_docked (s : GameState) (b : Bank) (dt : ℚ)
    (h : s.boat = BoatState.Docked b) : s.update_crossing dt = s := by
  unfold GameState.update_crossing
  rw [h]

lemma update_crossing_crossing (s : GameState) (f : Bank) (p : ℚ) (dt : ℚ)
    (h : s.boat = BoatState.Crossing f p) :
    s.update_crossing dt =
      if 1 ≤ min ((s.crossing_timer + dt) / 2) 1 then
        { s with
            crossing_timer := s.crossing_timer + dt
            boat := .Docked f.opposite
            crossing_count := s.crossing_count + 1 }
      else
        { s with
            crossing_timer := s.crossing_timer + dt
            boat := .Crossing f (min ((s.crossing_timer + dt) / 2) 1) } := by
  unfold GameState.update_crossing
  rw [h]
  rfl

lemma foldl_update_docked (dts : List ℚ) :
    ∀ (s : GameState) (b : Bank), s.boat = BoatState.Docked b →
      dts.foldl GameState.update_crossing s = s := by
  induction dts with
  | nil => intro s b _; rfl
  | cons d rest ih =>
    intro s b hb
    rw [List.foldl_cons, update_crossing_docked s b d hb]
    exact ih s b hb

lemma crossing_cond_iff (t : ℚ) : (1 ≤ min (t / 2) 1) ↔ 2 ≤ t := by
  rw [le_min_iff]
  constructor
  · rintro ⟨h1, _⟩
    linarith
  · intro h
    exact ⟨by linarith, le_refl 1⟩

lemma foldl_update_crossing (dts : List ℚ) :
    ∀ (s : GameState) (f : Bank), (∀ d ∈ dts, 0 ≤ d) →
    s.boat = BoatState.Crossing f (s.crossing_timer / 2) →
    0 ≤ s.crossing_timer → s.crossing_timer < 2 →
    (2 ≤ s.crossing_timer + dts.sum →
      (dts.foldl GameState.update_crossing s).boat = BoatState.Docked f.opposite ∧
      (dts.foldl GameState.update_crossing s).crossing_count = s.crossing_count + 1) ∧
    (s.crossing_timer + dts.sum < 2 →
      dts.foldl GameState.update_crossing s =
        { s with
            crossing_timer := s.crossing_timer + dts.sum
            boat := .Crossing f ((s.crossing_timer + dts.sum) / 2) }) := by
  induction dts with
  | nil =>
    intro s f _ hb h0 h2
    constructor
    · intro hge
      rw [List.sum_nil, add_zero] at hge
      linarith
    · intro _
      rw [List.foldl_nil, List.sum_nil, add_zero, ← hb]
    
  | cons d rest ih =>
    intro s f hnn hb h0 h2
    have hd0 : 0 ≤ d := hnn d (by simp)
    have hrest : ∀ x ∈ rest, 0 ≤ x := fun x hx => hnn x (by simp [hx])
    have hrest0 : 0 ≤ rest.sum := List.sum_nonneg hrest
    rw [List.foldl_cons, List.sum_cons]
    by_cases hcross : 2 ≤ s.crossing_timer + d
    · have hup : s.update_crossing d =
          { s with
              crossing_timer := s.crossing_timer + d
              boat := .Docked f.opposite
              crossing_count := s.crossing_count + 1 } := by
        rw [update_crossing_crossing s f _ d hb,
          if_pos ((crossing_cond_iff _).mpr hcross)]
      rw [hup, foldl_update_docked rest _ f.opposite rfl]
      constructor
      · intro _
        exact ⟨rfl, rfl⟩
      · intro hlt
        linarith
    · push_neg at hcross
      have hup : s.update_crossing d =
          { s with
              crossing_timer := s.crossing_timer + d
              boat := .Crossing f ((s.crossing_timer + d) / 2) } := by
        rw [update_crossing_crossing s f _ d hb]
        rw [if_neg (fun hc => absurd ((crossing_cond_iff _).mp hc) (by linarith))]
        rw [min_eq_left (by linarith)]
      rw [hup]
      obtain ⟨ih1, ih2⟩ := ih
        { s with
            crossing_timer := s.crossing_timer + d
            boat := .Crossing f ((s.crossing_timer + d) / 2) } f hrest rfl
        (by dsimp only; linarith) (by dsimp only; exact hcross)
      dsimp only at ih1 ih2
      constructor
      · intro hge
        exact ih1 (by linarith)
      · intro hlt
        rw [ih2 (by linarith), ← add_assoc]

/-- Claim C3: `update_crossing` is a no-op while docked; while crossing it
accumulates `dt` into the timer, sets progress to `min(elapsed/2, 1)` and, on
progress reaching 1, docks at the opposite bank and increments the crossing
counter; cumulatively, after starting a crossing from `Docked Left`,
non-negative deltas totalling at least 2 yield `Docked Right` with the counter
incremented exactly once, while a total below 2 leaves the boat `Crossing
Left` with progress `total/2` and the counter unchanged. -/
theorem update_crossing_spec (s : GameState) (dt : ℚ) (dts : List ℚ) :
    (∀ b, s.boat = BoatState.Docked b → s.update_crossing dt = s) ∧
    (∀ f p, s.boat = BoatState.Crossing f p →
      s.update_crossing dt =
        if 1 ≤ min ((s.crossing_timer + dt) / 2) 1 then
          { s with
              crossing_timer := s.crossing_timer + dt
              boat := .Docked f.opposite
              crossing_count := s.crossing_count + 1 }
        else
          { s with
              crossing_timer := s.crossing_timer + dt
              boat := .Crossing f (min ((s.crossing_timer + dt) / 2) 1) }) ∧
    (s.player = PlayerLocation.OnBoat → s.boat = BoatState.Docked Bank.Left →
      (∀ d ∈ dts, 0 ≤ d) →
      (2 ≤ dts.sum →
        (dts.foldl GameState.update_crossing (s.start_crossing).2).boat =
          BoatState.Docked Bank.Right ∧
        (dts.foldl GameState.update_crossing (s.start_crossing).2).crossing_count =
          s.crossing_count + 1) ∧
      (dts.sum < 2 →
        (dts.foldl GameState.update_crossing (s.start_crossing).2).boat =
          BoatState.Crossing Bank.Left (dts.sum / 2) ∧
        (dts.foldl GameState.update_crossing (s.start_crossing).2).crossing_count =
          s.crossing_count)) := by
  refine ⟨fun b h => update_crossing_docked s b dt h,
    fun f p h => update_crossing_crossing s f p dt h, ?_⟩
  intro hp hb hnn
  have hs2 : (s.start_crossing).2 =
      { s with boat := .Crossing Bank.Left 0, crossing_timer := 0 } := by
    simp [GameState.start_crossing, hp, hb]
  rw [hs2]
  obtain ⟨ih1, ih2⟩ := foldl_update_crossing dts
    { s with boat := .Crossing Bank.Left 0, crossing_timer := 0 } Bank.Left hnn
    (by dsimp only; norm_num) (by dsimp only; norm_num) (by dsimp only; norm_num)
  dsimp only at ih1 ih2
  constructor
  · intro hge
    exact ih1 (by linarith)
  · intro hlt
    have heq := ih2 (by linarith)
    rw [heq]
    constructor
    · dsimp only
      rw [zero_add]
    · rfl

/-- Witness for `update_crossing_spec`: the docked initial state absorbs an
update, and a boarded crossing driven by deltas 1 and 1 docks on the right
with the counter at 1. -/
theorem update_crossing_spec_witness :
    (GameState.new.update_crossing 1 = GameState.new) ∧
    (([1, 1] : List ℚ).foldl GameState.update_crossing
        (GameState.start_crossing { GameState.new with player := .OnBoat }).2).boat =
      BoatState.Docked Bank.Right ∧
    (([1, 1] : List ℚ).foldl GameState.update_crossing
        (GameState.start_crossing { GameState.new with player := .OnBoat }).2).crossing_count =
      GameState.new.crossing_count + 1 := by
  have h := (update_crossing_spec { GameState.new with player := .OnBoat } 1
    ([1, 1] : List ℚ)).2.2 rfl rfl (by intro d hd; simp at hd; rw [hd]; norm_num)
  have h2 := h.1 (by norm_num [List.sum_cons, List.sum_nil])
  exact ⟨(update_crossing_spec GameState.new 1 []).1 Bank.Left rfl, h2.1, h2.2⟩

/-! ### Invariants over reachable states (C8, C10) -/

/-- The entity table is the well-formed three-entry table. -/
def WFEntities (s : GameState) : Prop :=
  ∃ a b c, s.entities =
    [(Entity.Wolf, a), (Entity.Sheep, b), (Entity.Cabbage, c)]

lemma entity_location_of_table {s : GameState} {a b c : EntityLocation}
    (hE : s.entities = [(Entity.Wolf, a), (Entity.Sheep, b), (Entity.Cabbage, c)]) :
    s.entity_location Entity.Wolf = a ∧ s.entity_location Entity.Sheep = b ∧
    s.entity_location Entity.Cabbage = c := by
  refine ⟨?_, ?_, ?_⟩ <;> simp only [GameState.entity_location, hE] <;> rfl

lemma setLoc_table (a b c : EntityLocation) (e : Entity) (l : EntityLocation) :
    setLoc [(Entity.Wolf, a), (Entity.Sheep, b), (Entity.Cabbage, c)] e l =
      match e with
      | .Wolf => [(Entity.Wolf, l), (Entity.Sheep, b), (Entity.Cabbage, c)]
      | .Sheep => [(Entity.Wolf, a), (Entity.Sheep, l), (Entity.Cabbage, c)]
      | .Cabbage => [(Entity.Wolf, a), (Entity.Sheep, b), (Entity.Cabbage, l)] := by
  cases e <;> rfl

/-- The state invariant maintained by the main loop: the entity table is
well-formed; any entity tagged `FollowingPlayer` is the registered follower;
the follower is never tagged `OnBoat`; an entity is tagged `OnBoat` exactly
when it is the registered cargo; and a player on the boat has no follower. -/
def StateInv (s : GameState) : Prop :=
  WFEntities s ∧
  (∀ e, s.entity_location e = .FollowingPlayer → s.follower = some e) ∧
  (∀ e, s.follower = some e → s.entity_location e ≠ .OnBoat) ∧
  (∀ e, s.entity_location e = .OnBoat ↔ s.boat_cargo = some e) ∧
  (s.player = .OnBoat → s.follower = none)

lemma inv_new : StateInv GameState.new := by
  refine ⟨⟨_, _, _, rfl⟩, ?_, ?_, ?_, ?_⟩
  · intro e h
    exact absurd h (by cases e <;> decide)
  · intro e h
    simp [GameState.new] at h
  · intro e
    cases e <;> decide
  · intro h
    simp [GameState.new] at h
  
lemma find_nearby_entity_loc {s : GameState} {pos : GridPos} {bank : Bank} {e : Entity}
    (h : find_nearby_entity s pos bank = some e) :
    ∃ p, s.entity_location e = .OnBank bank p := by
  simp only [find_nearby_entity] at h
  split at h
  · rename_i e0 heq
    have hee : e0 = e := Option.some.inj h
    subst hee
    have hp := List.find?_some heq
    rw [Bool.and_eq_true] at hp
    obtain ⟨-, hp⟩ := hp
    rcases hl : s.entity_location e0 with ⟨b2, pp⟩ | _ | _ <;> rw [hl] at hp
    · rw [Bool.and_eq_true, beq_iff_eq] at hp
      exact ⟨pp, by rw [hp.1]⟩
    · simp at hp
    · simp at hp
  · have hp := List.find?_some h
    rw [Bool.and_eq_true] at hp
    obtain ⟨-, hp⟩ := hp
    rcases hl : s.entity_location e with ⟨b2, pp⟩ | _ | _ <;> rw [hl] at hp
    · rw [Bool.and_eq_true, beq_iff_eq] at hp
      exact ⟨pp, by rw [hp.1]⟩
    · simp at hp
    · simp at hp

/-- Facts guaranteed by the resolver about the action it returns. -/
lemma resolve_facts {s : GameState} {a : Game.Action}
    (h : resolve_interaction s = some a) :
    match a with
    | .PickUp e => s.follower = none ∧
        (∃ pos, s.player = .OnLand pos ∧
          ∃ bank, bank_of pos = some bank ∧ ∃ p, s.entity_location e = .OnBank bank p)
    | .Drop e => s.follower = some e ∧
        (∃ pos, s.player = .OnLand pos ∧ ∃ bank, bank_of pos = some bank)
    | .LoadOntoBoat e => s.follower = some e ∧ s.boat_cargo = none
    | .UnloadFromBoat e => s.follower = none ∧ s.boat_cargo = some e ∧
        ∃ bank, s.boat = .Docked bank
    | .BoardBoat => s.follower = none
    | .UnboardBoat => s.player = .OnBoat := by
  unfold resolve_interaction at h
  rcases hp : s.player with pos | _ <;> rw [hp] at h <;> dsimp only at h
  · unfold resolve_on_land at h
    rcases hb : bank_of pos with _ | bank <;> rw [hb] at h <;> dsimp only at h
    · cases h
    · by_cases hd : (is_dock_position pos bank && s.boat == BoatState.Docked bank) = true
      · rw [if_pos hd] at h
        rcases hf : s.follower with _ | e <;> rw [hf] at h <;> dsimp only at h
        · have ha := Option.some.inj h
          subst ha
          exact rfl
        · by_cases hc : s.boat_cargo.isNone = true
          · rw [if_pos hc] at h
            have ha := Option.some.inj h
            subst ha
            exact ⟨rfl, Option.isNone_iff_eq_none.mp hc⟩
          · rw [if_neg hc] at h
            cases h
      · rw [if_neg hd] at h
        rcases hf : s.follower with _ | e <;> rw [hf] at h <;> dsimp only at h
        · rcases hn : find_nearby_entity s pos bank with _ | e2 <;> rw [hn] at h <;>
            dsimp only at h
          · cases h
          · have ha := Option.some.inj h
            subst ha
            exact ⟨rfl, pos, rfl, bank, hb, find_nearby_entity_loc hn⟩
        · have ha := Option.some.inj h
          subst ha
          exact ⟨rfl, pos, rfl, bank, hb⟩
  · unfold resolve_on_boat at h
    rcases hb : s.boat with b | ⟨f, p⟩ <;> rw [hb] at h <;> dsimp only at h
    · rcases hf : s.follower with _ | e <;> rcases hc : s.boat_cargo with _ | e2 <;>
          rw [hf, hc] at h <;> dsimp only at h <;>
          (have ha := Option.some.inj h; subst ha)
      · exact rfl
      · exact ⟨rfl, rfl, b, rfl⟩
      · exact ⟨rfl, rfl⟩
      · exact rfl
    · cases h

lemma entity_location_set {s : GameState} {la lb lc : EntityLocation}
    (hE : s.entities = [(Entity.Wolf, la), (Entity.Sheep, lb), (Entity.Cabbage, lc)])
    (e e' : Entity) (l : EntityLocation) :
    (s.set_entity_location e l).entity_location e' =
      if e' = e then l else s.entity_location e' := by
  cases e <;> cases e' <;>
    simp only [GameState.set_entity_location, GameState.entity_location, hE] <;> rfl

lemma wf_set {s : GameState} {la lb lc : EntityLocation}
    (hE : s.entities = [(Entity.Wolf, la), (Entity.Sheep, lb), (Entity.Cabbage, lc)])
    (e : Entity) (l : EntityLocation) :
    WFEntities (s.set_entity_location e l) := by
  cases e
  · exact ⟨l, lb, lc, by simp only [GameState.set_entity_location, hE]; rfl⟩
  · exact ⟨la, l, lc, by simp only [GameState.set_entity_location, hE]; rfl⟩
  · exact ⟨la, lb, l, by simp only [GameState.set_entity_location, hE]; rfl⟩

lemma inv_execute {s : GameState} {a : Game.Action} (hI : StateInv s)
    (hres : resolve_interaction s = some a) : StateInv (s.execute_action a) := by
  obtain ⟨⟨la, lb, lc, hE⟩, h2, h3, h4, h5⟩ := hI
  have hfacts := resolve_facts hres
  cases a with
  | PickUp e =>
    dsimp only at hfacts
    obtain ⟨hfol, pos, hppos, bank, hbank, p, hloc⟩ := hfacts
    simp only [GameState.execute_action]
    have hE1 : ({ s with follower := some e }).entities =
        [(Entity.Wolf, la), (Entity.Sheep, lb), (Entity.Cabbage, lc)] := hE
    refine ⟨wf_set hE1 e _, ?_, ?_, ?_, ?_⟩
    · intro e' hl
      rw [entity_location_set hE1 e e' _] at hl
      by_cases hee : e' = e
      · rw [hee]
        rfl
      · rw [if_neg hee] at hl
        have := h2 e' hl
        rw [hfol] at this
        cases this
    · intro e' hf
      have hee : e = e' := Option.some.inj hf
      subst hee
      rw [entity_location_set hE1 e e _, if_pos rfl]
      simp
    · intro e'
      rw [entity_location_set hE1 e e' _]
      by_cases hee : e' = e
      · rw [if_pos hee]
        constructor
        · intro hco
          cases hco
        · intro hc
          subst hee
          have := (h4 e').mpr hc
          rw [hloc] at this
          cases this
      · rw [if_neg hee]
        exact h4 e'
    · intro hpb
      have hpb2 : s.player = PlayerLocation.OnBoat := hpb
      rw [hppos] at hpb2
      cases hpb2
  | Drop e =>
    dsimp only at hfacts
    obtain ⟨hfol, pos, hppos, bank, hbank⟩ := hfacts
    simp only [GameState.execute_action, hppos, hbank]
    have hE1 : ({ s with player := PlayerLocation.OnLand pos, follower := none }).entities =
        [(Entity.Wolf, la), (Entity.Sheep, lb), (Entity.Cabbage, lc)] := hE
    refine ⟨wf_set hE1 e _, ?_, ?_, ?_, ?_⟩
    · intro e' hl
      exfalso
      rw [entity_location_set hE1 e e' _] at hl
      by_cases hee : e' = e
      · rw [if_pos hee] at hl
        cases hl
      · rw [if_neg hee] at hl
        have := h2 e' hl
        rw [hfol] at this
        exact hee (Option.some.inj this).symm
    · intro e' hf
      cases hf
    · intro e'
      rw [entity_location_set hE1 e e' _]
      by_cases hee : e' = e
      · rw [if_pos hee]
        constructor
        · intro hco
          cases hco
        · intro hc
          exfalso
          subst hee
          exact h3 e' hfol ((h4 e').mpr hc)
      · rw [if_neg hee]
        exact h4 e'
    · intro hpb
      have hpb2 : PlayerLocation.OnLand pos = PlayerLocation.OnBoat := hpb
      cases hpb2
  | LoadOntoBoat e =>
    dsimp only at hfacts
    obtain ⟨hfol, hcargo⟩ := hfacts
    simp only [GameState.execute_action]
    have hE1 : ({ s with follower := none, boat_cargo := some e }).entities =
        [(Entity.Wolf, la), (Entity.Sheep, lb), (Entity.Cabbage, lc)] := hE
    refine ⟨wf_set hE1 e _, ?_, ?_, ?_, ?_⟩
    · intro e' hl
      exfalso
      rw [entity_location_set hE1 e e' _] at hl
      by_cases hee : e' = e
      · rw [if_pos hee] at hl
        cases hl
      · rw [if_neg hee] at hl
        have := h2 e' hl
        rw [hfol] at this
        exact hee (Option.some.inj this).symm
    · intro e' hf
      cases hf
    · intro e'
      rw [entity_location_set hE1 e e' _]
      by_cases hee : e' = e
      · rw [if_pos hee, hee]
        exact ⟨fun _ => rfl, fun _ => rfl⟩
      · rw [if_neg hee]
        constructor
        · intro hob
          exfalso
          have hob2 : s.entity_location e' = EntityLocation.OnBoat := hob
          have := (h4 e').mp hob2
          rw [hcargo] at this
          cases this
        · intro hc
          exfalso
          have : (e : Entity) = e' := Option.some.inj hc
          exact hee this.symm
    · intro _
      rfl
  | UnloadFromBoat e =>
    dsimp only at hfacts
    obtain ⟨hfol, hcargo, bank, hboat⟩ := hfacts
    simp only [GameState.execute_action, hboat]
    have hE1 : ({ s with boat := BoatState.Docked bank, boat_cargo := none }).entities =
        [(Entity.Wolf, la), (Entity.Sheep, lb), (Entity.Cabbage, lc)] := hE
    refine ⟨wf_set hE1 e _, ?_, ?_, ?_, ?_⟩
    · intro e' hl
      exfalso
      rw [entity_location_set hE1 e e' _] at hl
      by_cases hee : e' = e
      · rw [if_pos hee] at hl
        cases hl
      · rw [if_neg hee] at hl
        have := h2 e' hl
        rw [hfol] at this
        cases this
    · intro e' hf
      have hf2 : s.follower = some e' := hf
      rw [hfol] at hf2
      cases hf2
    · intro e'
      rw [entity_location_set hE1 e e' _]
      by_cases hee : e' = e
      · rw [if_pos hee]
        constructor
        · intro hco
          cases hco
        · intro hc
          cases hc
      · rw [if_neg hee]
        constructor
        · intro hob
          exfalso
          have := (h4 e').mp hob
          rw [hcargo] at this
          exact hee (Option.some.inj this).symm
        · intro hc
          cases hc
    · intro _
      exact hfol
  | BoardBoat =>
    dsimp only at hfacts
    simp only [GameState.execute_action]
    exact ⟨⟨la, lb, lc, hE⟩, h2, h3, h4, fun _ => hfacts⟩
  | UnboardBoat =>
    dsimp only at hfacts
    have hfol := h5 hfacts
    simp only [GameState.execute_action]
    rcases hb : s.boat with bank | ⟨f, p⟩
    · simp only [hfol]
      refine ⟨⟨la, lb, lc, hE⟩, ?_, ?_, ?_, ?_⟩
      · intro e' hl
        exfalso
        have hl2 : s.entity_location e' = EntityLocation.FollowingPlayer := hl
        have := h2 e' hl2
        rw [hfol] at this
        cases this
      · intro e' hf
        have hf2 : (none : Option Entity) = some e' := hf
        cases hf2
      · intro e'
        constructor
        · intro hob
          have hob2 : s.entity_location e' = EntityLocation.OnBoat := hob
          exact (h4 e').mp hob2
        · intro hc
          have hc2 : s.boat_cargo = some e' := hc
          exact (h4 e').mpr hc2
      · intro hco
        have hco2 : PlayerLocation.OnLand (dock_for bank) = PlayerLocation.OnBoat := hco
        cases hco2
    · exact ⟨⟨la, lb, lc, hE⟩, h2, h3, h4, h5⟩

lemma stateInv_congr {s s' : GameState} (hE : s'.entities = s.entities)
    (hf : s'.follower = s.follower) (hc : s'.boat_cargo = s.boat_cargo)
    (hp : s'.player = s.player) (h : StateInv s) : StateInv s' := by
  obtain ⟨⟨la, lb, lc, hE0⟩, h2, h3, h4, h5⟩ := h
  have hel : ∀ e, s'.entity_location e = s.entity_location e := by
    intro e
    unfold GameState.entity_location
    rw [hE]
  refine ⟨⟨la, lb, lc, hE.trans hE0⟩, ?_, ?_, ?_, ?_⟩
  · intro e hl
    rw [hel e] at hl
    rw [hf]
    exact h2 e hl
  · intro e hfe
    rw [hf] at hfe
    rw [Ne, hel e]
    exact h3 e hfe
  · intro e
    rw [hel e, hc]
    exact h4 e
  · intro hpb
    rw [hp] at hpb
    rw [hf]
    exact h5 hpb

lemma start_crossing_fields (s : GameState) :
    (s.start_crossing).2.entities = s.entities ∧
    (s.start_crossing).2.follower = s.follower ∧
    (s.start_crossing).2.boat_cargo = s.boat_cargo ∧
    (s.start_crossing).2.player = s.player := by
  unfold GameState.start_crossing
  split
  · split <;> exact ⟨rfl, rfl, rfl, rfl⟩
  · exact ⟨rfl, rfl, rfl, rfl⟩

lemma inv_update (s : GameState) (dt : ℚ) (h : StateInv s) :
    StateInv (s.update_crossing dt) :=
  stateInv_congr (update_crossing_fields s dt).2.2.1 (update_crossing_fields s dt).2.2.2.1
    (update_crossing_fields s dt).2.2.2.2 (update_crossing_fields s dt).2.1 h

lemma inv_start (s : GameState) (h : StateInv s) : StateInv ((s.start_crossing).2) :=
  stateInv_congr (start_crossing_fields s).1 (start_crossing_fields s).2.1
    (start_crossing_fields s).2.2.1 (start_crossing_fields s).2.2.2 h

lemma inv_try_move {s : GameState} (dir : Direction) (hI : StateInv s) :
    StateInv ((s.try_move_player dir).2) := by
  obtain ⟨⟨la, lb, lc, hE⟩, h2, h3, h4, h5⟩ := hI
  rcases hp : s.player with pos | _
  · by_cases hw : is_walkable (pos.step dir) = true
    · rcases hf : s.follower with _ | e
      · have hres : (s.try_move_player dir).2 =
            { s with player := .OnLand (pos.step dir) } := by
          simp [GameState.try_move_player, hp, hw, hf]
        rw [hres]
        refine ⟨⟨la, lb, lc, hE⟩, ?_, ?_, ?_, ?_⟩
        · intro e' hl
          have hl2 : s.entity_location e' = EntityLocation.FollowingPlayer := hl
          have := h2 e' hl2
          rw [hf] at this
          cases this
        · intro e' hfe
          have hfe2 : s.follower = some e' := hfe
          rw [hf] at hfe2
          cases hfe2
        · intro e'
          exact h4 e'
        · intro hpb
          have hpb2 : PlayerLocation.OnLand (pos.step dir) = PlayerLocation.OnBoat := hpb
          cases hpb2
      · rcases hbk : bank_of (pos.step dir) with _ | b
        · have hres : (s.try_move_player dir).2 =
              { s with player := .OnLand (pos.step dir) } := by
            simp [GameState.try_move_player, hp, hw, hf, hbk]
          rw [hres]
          refine ⟨⟨la, lb, lc, hE⟩, ?_, ?_, ?_, ?_⟩
          · intro e' hl
            have hl2 : s.entity_location e' = EntityLocation.FollowingPlayer := hl
            exact h2 e' hl2
          · intro e' hfe
            have hfe2 : s.follower = some e' := hfe
            have hne := h3 e' hfe2
            exact hne
          · intro e'
            exact h4 e'
          · intro hpb
            have hpb2 : PlayerLocation.OnLand (pos.step dir) = PlayerLocation.OnBoat := hpb
            cases hpb2
        · have hres : (s.try_move_player dir).2 =
              ({ s with player := .OnLand (pos.step dir) }).set_entity_location e
                (.OnBank b pos) := by
            simp [GameState.try_move_player, hp, hw, hf, hbk]
          rw [hres]
          have hE1 : ({ s with player := PlayerLocation.OnLand (pos.step dir) }).entities =
              [(Entity.Wolf, la), (Entity.Sheep, lb), (Entity.Cabbage, lc)] := hE
          refine ⟨wf_set hE1 e _, ?_, ?_, ?_, ?_⟩
          · intro e' hl
            rw [entity_location_set hE1 e e' _] at hl
            by_cases hee : e' = e
            · rw [if_pos hee] at hl
              cases hl
            · rw [if_neg hee] at hl
              have hl2 : s.entity_location e' = EntityLocation.FollowingPlayer := hl
              exact h2 e' hl2
          · intro e' hfe
            have hfe2 : s.follower = some e' := hfe
            rw [hf] at hfe2
            have hee : e = e' := Option.some.inj hfe2
            rw [entity_location_set hE1 e e' _, if_pos hee.symm]
            intro hco
            cases hco
          · intro e'
            rw [entity_location_set hE1 e e' _]
            by_cases hee : e' = e
            · rw [if_pos hee]
              constructor
              · intro hco
                cases hco
              · intro hc
                exfalso
                have hc2 : s.boat_cargo = some e' := hc
                have hob := (h4 e').mpr hc2
                subst hee
                exact h3 e' hf hob
            · rw [if_neg hee]
              constructor
              · intro hob
                have hob2 : s.entity_location e' = EntityLocation.OnBoat := hob
                exact (h4 e').mp hob2
              · intro hc
                have hc2 : s.boat_cargo = some e' := hc
                exact (h4 e').mpr hc2
          · intro hpb
            have hpb2 : PlayerLocation.OnLand (pos.step dir) = PlayerLocation.OnBoat := hpb
            cases hpb2
    · have hres : (s.try_move_player dir).2 = s := by
        simp [GameState.try_move_player, hp, hw]
      rw [hres]
      exact ⟨⟨la, lb, lc, hE⟩, h2, h3, h4, h5⟩
  · have hres : (s.try_move_player dir).2 = s := by
      simp [GameState.try_move_player, hp]
    rw [hres]
    exact ⟨⟨la, lb, lc, hE⟩, h2, h3, h4, h5⟩

lemma inv_step {s : GameState} (ev : InputEvent) (dt : ℚ) (hI : StateInv s) :
    StateInv (gameStep s ev dt) := by
  rcases hph : s.phase with _ | _ | r
  · unfold gameStep
    rw [hph]
    cases ev <;> dsimp only
    case Move dir =>
      exact inv_update _ dt (inv_try_move dir hI)
    case Interact =>
      rcases hres : resolve_interaction s with _ | a <;> dsimp only
      · exact inv_update _ dt hI
      · refine inv_update _ dt ?_
        split
        · exact stateInv_congr rfl rfl rfl rfl (inv_execute hI hres)
        · exact inv_execute hI hres
    case CrossRiver =>
      refine inv_update _ dt ?_
      split
      · split
        · exact stateInv_congr rfl rfl rfl rfl (inv_start s hI)
        · exact inv_start s hI
      · exact inv_start s hI
    case Restart =>
      exact inv_update _ dt inv_new
    case None =>
      exact inv_update _ dt hI
  · unfold gameStep
    rw [hph]
    dsimp only
    split
    · exact inv_new
    · exact hI
  · unfold gameStep
    rw [hph]
    dsimp only
    split
    · exact inv_new
    · exact hI

lemma inv_reachable {s : GameState} (h : Reachable s) : StateInv s := by
  induction h with
  | init => exact inv_new
  | step ev dt _ ih => exact inv_step ev dt ih

/-! ### C10: a player on the boat has no follower -/

/-- Claim C10: in every state reachable by main-loop steps, the player being
on the boat implies there is no follower; and in any state whatsoever the
resolver never yields `BoardBoat` while a follower exists, so the on-boat
load-the-follower branch can never see a still-following entity. -/
theorem onboat_no_follower (s : GameState) (h : Reachable s) :
    (s.player = PlayerLocation.OnBoat → s.follower = none) ∧
    (∀ e, s.follower = some e →
      resolve_interaction s ≠ some Game.Action.BoardBoat) := by
  refine ⟨(inv_reachable h).2.2.2.2, ?_⟩
  intro e hf hres
  have hfacts := resolve_facts hres
  dsimp only at hfacts
  rw [hfacts] at hf
  cases hf

/-- Witness for `onboat_no_follower`: the initial state is reachable. -/
theorem onboat_no_follower_witness :
    (GameState.new.player = PlayerLocation.OnBoat → GameState.new.follower = none) ∧
    (∀ e, GameState.new.follower = some e →
      resolve_interaction GameState.new ≠ some Game.Action.BoardBoat) :=
  onboat_no_follower GameState.new Reachable.init

/-! ### C8: follower/cargo consistency -/

/-- Counterexample to claim C8 as stated: after moving onto the sheep, picking
it up, and moving one tile back, the reachable state has `follower = some
Sheep` while the sheep's recorded location is `OnBank` (the move rewrote it),
not `FollowingPlayer`. -/
theorem follower_invariant_counterexample :
    Reachable (gameStep (gameStep (gameStep GameState.new (.Move .Left) 0) .Interact 0)
      (.Move .Right) 0) ∧
    (gameStep (gameStep (gameStep GameState.new (.Move .Left) 0) .Interact 0)
      (.Move .Right) 0).follower = some Entity.Sheep ∧
    (gameStep (gameStep (gameStep GameState.new (.Move .Left) 0) .Interact 0)
      (.Move .Right) 0).entity_location Entity.Sheep ≠
      EntityLocation.FollowingPlayer := by
  refine ⟨Reachable.step _ _ (Reachable.step _ _ (Reachable.step _ _ Reachable.init)),
    ?_, ?_⟩
  · decide
  · decide

/-- Claim C8 (amended): in every reachable state, `follower = some e` implies
`e`'s location is `FollowingPlayer` or some `OnBank` (movement rewrites a
follower's tag to the bank tile it trails on) and no other entity's location
is `FollowingPlayer`; and `boat_cargo = some e` implies `e`'s location is
`OnBoat` and no other entity's location is `OnBoat`. -/
theorem follower_cargo_invariant (s : GameState) (h : Reachable s) :
    (∀ e, s.follower = some e →
      (s.entity_location e = EntityLocation.FollowingPlayer ∨
        ∃ b p, s.entity_location e = EntityLocation.OnBank b p) ∧
      (∀ e2, e2 ≠ e → s.entity_location e2 ≠ EntityLocation.FollowingPlayer)) ∧
    (∀ e, s.boat_cargo = some e →
      s.entity_location e = EntityLocation.OnBoat ∧
      (∀ e2, e2 ≠ e → s.entity_location e2 ≠ EntityLocation.OnBoat)) := by
  obtain ⟨hwf, h2, h3, h4, h5⟩ := inv_reachable h
  constructor
  · intro e hf
    constructor
    · rcases hl : s.entity_location e with ⟨b, p⟩ | _ | _
      · exact Or.inr ⟨b, p, rfl⟩
      · exact Or.inl rfl
      · exact absurd hl (h3 e hf)
    · intro e2 hne hl
      have := h2 e2 hl
      rw [hf] at this
      exact hne (Option.some.inj this).symm
  · intro e hc
    refine ⟨(h4 e).mpr hc, ?_⟩
    intro e2 hne hl
    have := (h4 e2).mp hl
    rw [hc] at this
    exact hne (Option.some.inj this).symm

/-- Witness for `follower_cargo_invariant`: evaluated on the reachable
three-step trace whose follower is the sheep. -/
theorem follower_cargo_invariant_witness :
    (∀ e, (gameStep (gameStep (gameStep GameState.new (.Move .Left) 0) .Interact 0)
        (.Move .Right) 0).follower = some e →
      ((gameStep (gameStep (gameStep GameState.new (.Move .Left) 0) .Interact 0)
          (.Move .Right) 0).entity_location e = EntityLocation.FollowingPlayer ∨
        ∃ b p, (gameStep (gameStep (gameStep GameState.new (.Move .Left) 0) .Interact 0)
          (.Move .Right) 0).entity_location e = EntityLocation.OnBank b p) ∧
      (∀ e2, e2 ≠ e →
        (gameStep (gameStep (gameStep GameState.new (.Move .Left) 0) .Interact 0)
          (.Move .Right) 0).entity_location e2 ≠ EntityLocation.FollowingPlayer)) ∧
    (∀ e, (gameStep (gameStep (gameStep GameState.new (.Move .Left) 0) .Interact 0)
        (.Move .Right) 0).boat_cargo = some e →
      (gameStep (gameStep (gameStep GameState.new (.Move .Left) 0) .Interact 0)
        (.Move .Right) 0).entity_location e = EntityLocation.OnBoat ∧
      (∀ e2, e2 ≠ e →
        (gameStep (gameStep (gameStep GameState.new (.Move .Left) 0) .Interact 0)
          (.Move .Right) 0).entity_location e2 ≠ EntityLocation.OnBoat)) :=
  follower_cargo_invariant _
    (Reachable.step _ _ (Reachable.step _ _ (Reachable.step _ _ Reachable.init)))
